import Mathlib

/-!
Shallow embedding of the core of the `napcat-plugin-pixiv` repository and a
verification of its specification claims.

Embedded components (all translated from the TypeScript sources):

* `src/services/banned-words.service.ts` — banned-word rules, the matcher
  (`matchText` / `checkKeyword` / `checkIllust`) and the validated CRUD
  operations (`addWord` / `updateWord`).  The JavaScript regular-expression
  engine is abstracted as an oracle `rtest : String → String → Option Bool`
  (`none` models a thrown exception, which the source catches and treats as
  a non-match) and regex compilation as `compile : String → Bool`.
* `src/services/pixiv.service.ts` — the filter-and-extraction stage
  (`extractTopSafe`), the two acquisition orchestrators (`searchTop3`,
  `getRandomTop3`) and the image cache (`downloadImage`).  `Math.random`
  is abstracted as rational-valued oracles; upstream responses are a
  function from attempt index to the raw batch; the filesystem is the list
  of existing file paths.
* `src/handlers/pixiv-handler.ts` — the sliding-window rate limiter
  (`isRateLimited`).

Instrumented variants (suffix `I`, or `extractTopSafeFull`) carry ghost
observations (number of upstream calls, per-attempt traces, stop reasons,
counts of silently dropped items); projection lemmas show they compute the
same `ExtractResult` as the plain translations.
-/

set_option maxHeartbeats 1000000

namespace NapcatPixiv

/-- Match types of banned-word rules (`BannedWordMatchType` in `types.ts`). -/
inductive MatchType where
  | exact
  | fuzzy
  | regex
  deriving DecidableEq, Repr

/-- A banned-word rule (`BannedWord` in `types.ts`). -/
structure BannedWord where
  id : String
  pattern : String
  matchType : MatchType
  enabled : Bool
  createdAt : Nat
  deriving DecidableEq, Repr

/-- Substring containment on strings, modelling JS `String.prototype.includes`. -/
def strContains (text pat : String) : Bool :=
  (List.range (text.toList.length + 1)).any fun i => pat.toList.isPrefixOf (text.toList.drop i)

/-- One rule's test from the loop body of `matchText`
(`banned-words.service.ts`, lines 122–139): `exact` compares the lowercased
text with the lowercased pattern, `fuzzy` is lowercased substring
containment, `regex` applies the abstract case-insensitive regex oracle to
the original-case text; an oracle result of `none` models a thrown
exception, which the source catches, logs and treats as a non-match. -/
def matchesRule (rtest : String → String → Option Bool) (text : String) (w : BannedWord) : Bool :=
  match w.matchType with
  | .exact => text.toLower == w.pattern.toLower
  | .fuzzy => strContains text.toLower w.pattern.toLower
  | .regex => (rtest w.pattern text).getD false

/-- `matchText` (`banned-words.service.ts`): iterate the enabled rules in
stored order and return the first match. -/
def matchText (rtest : String → String → Option Bool) (words : List BannedWord)
    (text : String) : Option BannedWord :=
  (words.filter fun w => w.enabled).find? (matchesRule rtest text)

/-- `checkKeyword` (`banned-words.service.ts`): alias for `matchText`. -/
def checkKeyword (rtest : String → String → Option Bool) (words : List BannedWord)
    (text : String) : Option BannedWord :=
  matchText rtest words text

/-- Tag-scanning loop of `checkIllust`: a tag is checked only when its
`name` field is present and truthy (nonempty). -/
def checkTags (rtest : String → String → Option Bool) (words : List BannedWord) :
    List (Option String) → Option BannedWord
  | [] => none
  | t :: rest =>
    match t with
    | some n =>
      if n ≠ "" then
        match matchText rtest words n with
        | some hit => some hit
        | none => checkTags rtest words rest
      else checkTags rtest words rest
    | none => checkTags rtest words rest

/-- The raw-illustration shape consumed by `checkIllust`: the title is
checked only when truthy (nonempty models the absent/empty title), then each
tag name, short-circuiting on the first hit. -/
def checkIllustParts (rtest : String → String → Option Bool) (words : List BannedWord)
    (title : String) (tags : List (Option String)) : Option BannedWord :=
  match (if title ≠ "" then matchText rtest words title else none) with
  | some hit => some hit
  | none => checkTags rtest words tags

/-- The banned-word service state: the in-memory rule list and the
persisted (`banned-words.json`) rule list.  `save()` copies the in-memory
list into the persisted one. -/
structure BWState where
  words : List BannedWord
  persisted : List BannedWord
  deriving DecidableEq, Repr

/-- `add` (`banned-words.service.ts`, lines 46–69): for `regex` rules the
pattern is compiled first (abstract oracle `compile`); on failure the whole
operation throws (`Except.error`) with a descriptive message and no state is
touched; on success the new rule is appended and the list saved.  `newId`
models `randomUUID()` and `now` models `Date.now()`. -/
def addWord (compile : String → Bool) (st : BWState) (newId : String) (now : Nat)
    (pattern : String) (matchType : MatchType) : BWState × Except String BannedWord :=
  if matchType = MatchType.regex ∧ compile pattern = false then
    (st, Except.error ("正则表达式语法错误: " ++ pattern))
  else
    let w : BannedWord := ⟨newId, pattern, matchType, true, now⟩
    let ws := st.words ++ [w]
    (⟨ws, ws⟩, Except.ok w)

/-- `update` (`banned-words.service.ts`, lines 72–94): find the rule by id
(`none` in the result models the `null` return when absent); re-validate the
effective match type and pattern; on regex-compilation failure throw with a
descriptive message and leave all state untouched; else mutate the found
rule in place and save. -/
def updateWord (compile : String → Bool) (st : BWState) (wid : String)
    (upat : Option String) (umt : Option MatchType) (uen : Option Bool) :
    BWState × Except String (Option BannedWord) :=
  let i := st.words.findIdx fun w => w.id == wid
  match st.words[i]? with
  | none => (st, Except.ok none)
  | some w =>
    let newMatchType := umt.getD w.matchType
    let newPattern := upat.getD w.pattern
    if newMatchType = MatchType.regex ∧ compile newPattern = false then
      (st, Except.error ("正则表达式语法错误: " ++ newPattern))
    else
      let w2 : BannedWord :=
        ⟨w.id, upat.getD w.pattern, umt.getD w.matchType, uen.getD w.enabled, w.createdAt⟩
      let ws2 := st.words.set i w2
      (⟨ws2, ws2⟩, Except.ok (some w2))

/-- `isRateLimited` pruning loop (`pixiv-handler.ts`, lines 210–212): shift
entries from the front while the head timestamp is at least one window old. -/
def pruneWindow (now : Int) : List Int → List Int
  | [] => []
  | t :: rest => if t ≤ now - 60000 then pruneWindow now rest else t :: rest

/-- `isRateLimited` (`pixiv-handler.ts`, lines 202–221) as a pure transition
on the timestamp list: returns the limited flag and the new list.  A
non-positive limit disables the gate entirely (no pruning, no recording). -/
def isRateLimited (limit : Int) (now : Int) (ts : List Int) : Bool × List Int :=
  if limit ≤ 0 then (false, ts)
  else
    let pruned := pruneWindow now ts
    if limit ≤ (pruned.length : Int) then (true, pruned)
    else (false, pruned ++ [now])

/-- `path.basename`: the last `/`-separated component of the URL. -/
def urlBasename (url : String) : String :=
  (url.splitOn "/").getLastD url

/-- `downloadImage` (`pixiv.service.ts`, lines 289–310) on an abstract
filesystem (the list of existing file paths), success path of `pixivImg`
modelled as creating the target file.  Returns the local path, the new
filesystem and the number of network downloads performed (0 on a cache
hit, 1 otherwise). -/
def downloadImage (tmpDir : String) (imageUrl : String) (fsNames : List String) :
    String × List String × Nat :=
  let fileName := urlBasename imageUrl
  let filePath := tmpDir ++ "/" ++ fileName
  if fsNames.contains filePath then (filePath, fsNames, 0)
  else (filePath, fsNames ++ [filePath], 1)

/-- The configuration fields consumed by the pipeline (`types.ts`): absent
booleans are falsy in JS, so they are plain `Bool`; `resultCount` keeps its
optionality (`?? 3` applied at use sites). -/
structure Config where
  r18Enabled : Bool
  sensitiveEnabled : Bool
  resultCount : Option Nat
  deriving DecidableEq, Repr

/-- A raw upstream illustration, restricted to the fields the pipeline
reads.  `xRestrict`/`sanityLevel` keep JS absence as `none` (the source
collapses `sanityLevel ?? sanity_level ?? 0`, modelled as one optional
field); tags carry optional `name` fields; the three image-URL slots mirror
`metaSinglePage.originalImageUrl`, `imageUrls.large`, `imageUrls.medium`;
`userName` mirrors `user?.name`. -/
structure Illust where
  id : Int
  title : String
  xRestrict : Option Int
  sanityLevel : Option Int
  tags : List (Option String)
  originalImageUrl : Option String
  largeUrl : Option String
  mediumUrl : Option String
  userName : Option String
  deriving DecidableEq, Repr

/-- A filtered, normalized illustration (`SafeIllust` in `pixiv.service.ts`). -/
structure SafeIllust where
  id : Int
  title : String
  userName : String
  imageUrl : String
  deriving DecidableEq, Repr

/-- `ExtractResult` (`pixiv.service.ts`). -/
structure ExtractResult where
  illusts : List SafeIllust
  totalScanned : Nat
  r18Filtered : Nat
  sensitiveFiltered : Nat
  bannedFiltered : Nat
  deriving DecidableEq, Repr

/-- JS truthiness on an optional string: absent and empty are falsy. -/
def truthyStr : Option String → Option String
  | some s => if s = "" then none else some s
  | none => none

/-- Image-URL resolution (`pixiv.service.ts`, lines 120–127):
`metaSinglePage?.originalImageUrl`, else `imageUrls?.large ||
imageUrls?.medium`; a falsy final value means the item is dropped. -/
def resolveImageUrl (it : Illust) : Option String :=
  match truthyStr it.originalImageUrl with
  | some u => some u
  | none =>
    match truthyStr it.largeUrl with
    | some u => some u
    | none => truthyStr it.mediumUrl

/-- The maturity filter test (`pixiv.service.ts`, line 97): reject when R-18
is not enabled and `xRestrict` is present and nonzero. -/
def rejectsR18 (cfg : Config) (it : Illust) : Bool :=
  !cfg.r18Enabled && (match it.xRestrict with
    | some v => v != 0
    | none => false)

/-- The sensitivity filter test (`pixiv.service.ts`, lines 104–105): reject
when sensitive content is not enabled and the sanity level (defaulting to 0)
is at least 4. -/
def rejectsSensitive (cfg : Config) (it : Illust) : Bool :=
  !cfg.sensitiveEnabled && (4 ≤ it.sanityLevel.getD 0)

/-- `checkIllust` applied to a raw illustration (title, then tag names). -/
def checkIllust (rtest : String → String → Option Bool) (words : List BannedWord)
    (it : Illust) : Option BannedWord :=
  checkIllustParts rtest words it.title it.tags

/-- Projection of a surviving raw item (`pixiv.service.ts`, lines 129–134):
`user?.name || '未知'`. -/
def mkSafe (it : Illust) (url : String) : SafeIllust :=
  ⟨it.id, it.title, (truthyStr it.userName).getD "未知", url⟩

/-- One JS `[l[i], l[j]] = [l[j], l[i]]` swap on a list; out-of-range
indices leave the list unchanged. -/
def swapList (l : List Illust) (i j : Nat) : List Illust :=
  match l[i]?, l[j]? with
  | some x, some y => (l.set i y).set j x
  | _, _ => l

/-- The Fisher–Yates loop of `extractTopSafe` (`pixiv.service.ts`, lines
82–85), counting `i` down to 1; `rand i` abstracts
`Math.floor(Math.random() * (i + 1))`, reduced mod `i + 1` to express its
range. -/
def fisherYatesAux (rand : Nat → Nat) : Nat → List Illust → List Illust
  | 0, l => l
  | i + 1, l => fisherYatesAux rand i (swapList l (i + 1) (rand (i + 1) % (i + 2)))

/-- The full shuffle: run the loop from `length - 1` down. -/
def fisherYates (rand : Nat → Nat) (l : List Illust) : List Illust :=
  fisherYatesAux rand (l.length - 1) l

/-- The scanning loop of `extractTopSafe` (`pixiv.service.ts`, lines
93–135): stop when `count` items are accepted; otherwise apply the maturity,
sensitivity and banned-word filters in order (each incrementing its tally
and short-circuiting), then resolve the image URL, silently dropping items
without one. -/
def extractScanGo (cfg : Config) (rtest : String → String → Option Bool)
    (words : List BannedWord) (count : Nat) :
    List Illust → List SafeIllust → Nat → Nat → Nat →
    List SafeIllust × Nat × Nat × Nat
  | [], res, r, s, b => (res, r, s, b)
  | it :: rest, res, r, s, b =>
    if count ≤ res.length then (res, r, s, b)
    else if rejectsR18 cfg it then extractScanGo cfg rtest words count rest res (r + 1) s b
    else if rejectsSensitive cfg it then extractScanGo cfg rtest words count rest res r (s + 1) b
    else if (checkIllust rtest words it).isSome then
      extractScanGo cfg rtest words count rest res r s (b + 1)
    else
      match resolveImageUrl it with
      | none => extractScanGo cfg rtest words count rest res r s b
      | some u => extractScanGo cfg rtest words count rest (res ++ [mkSafe it u]) r s b

/-- `extractTopSafe` (`pixiv.service.ts`, lines 77–138): optionally shuffle
(the source skips the shuffle on an empty batch, which changes nothing),
scan with the loop above, and report `totalScanned` as the length of the
(possibly shuffled) batch. -/
def extractTopSafe (cfg : Config) (rtest : String → String → Option Bool)
    (words : List BannedWord) (rand : Nat → Nat) (illusts0 : List Illust)
    (shuffle : Bool) : ExtractResult :=
  let count := cfg.resultCount.getD 3
  let illusts := if shuffle && decide (0 < illusts0.length) then fisherYates rand illusts0 else illusts0
  match extractScanGo cfg rtest words count illusts [] 0 0 0 with
  | (res, r, s, b) => ⟨res, illusts.length, r, s, b⟩

/-- Ghost-instrumented scanning loop: additionally counts the items
silently dropped for lacking a resolvable image URL (`dropped`) and the
items left unexamined by the early stop (`unscanned`); the first four
components follow `extractScanGo` exactly. -/
def extractScanFull (cfg : Config) (rtest : String → String → Option Bool)
    (words : List BannedWord) (count : Nat) :
    List Illust → List SafeIllust → Nat → Nat → Nat →
    List SafeIllust × Nat × Nat × Nat × Nat × Nat
  | [], res, r, s, b => (res, r, s, b, 0, 0)
  | it :: rest, res, r, s, b =>
    if count ≤ res.length then (res, r, s, b, 0, (it :: rest).length)
    else if rejectsR18 cfg it then extractScanFull cfg rtest words count rest res (r + 1) s b
    else if rejectsSensitive cfg it then extractScanFull cfg rtest words count rest res r (s + 1) b
    else if (checkIllust rtest words it).isSome then
      extractScanFull cfg rtest words count rest res r s (b + 1)
    else
      match resolveImageUrl it with
      | none =>
        match extractScanFull cfg rtest words count rest res r s b with
        | (res2, r2, s2, b2, d2, u2) => (res2, r2, s2, b2, d2 + 1, u2)
      | some u => extractScanFull cfg rtest words count rest (res ++ [mkSafe it u]) r s b

/-- Ghost output of the instrumented extraction stage. -/
structure ExtractOut where
  result : ExtractResult
  dropped : Nat
  unscanned : Nat
  deriving DecidableEq, Repr

/-- `extractTopSafe` with the ghost drop/unscanned counters. -/
def extractTopSafeFull (cfg : Config) (rtest : String → String → Option Bool)
    (words : List BannedWord) (rand : Nat → Nat) (illusts0 : List Illust)
    (shuffle : Bool) : ExtractOut :=
  let count := cfg.resultCount.getD 3
  let illusts := if shuffle && decide (0 < illusts0.length) then fisherYates rand illusts0 else illusts0
  match extractScanFull cfg rtest words count illusts [] 0 0 0 with
  | (res, r, s, b, d, u) => ⟨⟨res, illusts.length, r, s, b⟩, d, u⟩

/-- Membership test of the accumulation pool (`collectedMap.has`), keyed by
illustration id.  The pool is the insertion-ordered entry list of the JS
`Map`. -/
def poolHas (pool : List SafeIllust) (i : Int) : Bool :=
  pool.any fun x => x.id == i

/-- The de-duplicating merge loop (`pixiv.service.ts`, lines 174–178 and
242–246): append each newly extracted item unless its id is already in the
pool — first occurrence wins. -/
def mergeInto (pool : List SafeIllust) (news : List SafeIllust) : List SafeIllust :=
  news.foldl (fun p it => if poolHas p it.id then p else p ++ [it]) pool

/-- Lookup in the pool by id (the value a JS `Map` holds for a key). -/
def findById (pool : List SafeIllust) (i : Int) : Option SafeIllust :=
  pool.find? fun x => x.id == i

/-- `Math.floor(q * (m + 1))` for a random draw `q ∈ [0, 1)`: the uniform
integer in `[0, m]` drawn by `searchTop3` for its request offset. -/
def jsRandInt (q : ℚ) (m : Nat) : Nat :=
  (⌊q * (m + 1)⌋).toNat

/-- The offset-ceiling ladder of `searchTop3` (`pixiv.service.ts`, line 157). -/
def offsetLimits : List Nat := [300, 200, 100, 50, 0]

/-- `offsetLimits[Math.min(offsetLevel, offsetLimits.length - 1)]`. -/
def maxOffsetAt (level : Nat) : Nat :=
  offsetLimits.getD (min level (offsetLimits.length - 1)) 0

/-- The accumulator state carried across `searchTop3` attempts. -/
structure SearchAcc where
  pool : List SafeIllust
  scanned : Nat
  r18 : Nat
  sens : Nat
  banned : Nat
  offsetLevel : Nat
  deriving Repr

/-- Assemble the returned `ExtractResult` from the accumulator: every return
path of both orchestrators takes the first `required` pool entries in
insertion order together with the accumulated tallies. -/
def finishResult (required : Nat) (st : SearchAcc) : ExtractResult :=
  ⟨st.pool.take required, st.scanned, st.r18, st.sens, st.banned⟩

/-- The retry loop of `searchTop3` (`pixiv.service.ts`, lines 160–207).
`responses t` is the raw batch the upstream search returns on the `t`-th
call, `rnd t` the `Math.random()` draw for its offset, `shuf t` the shuffle
oracle handed to `extractTopSafe`.  Per attempt: compute the offset from the
current ceiling, call upstream, extract with shuffling, merge into the pool,
accumulate tallies; return early once the pool reaches `required`; on an
empty raw batch bump the offset level and stop when the ceiling was already
0; otherwise retry while fuel remains. -/
def searchGo (cfg : Config) (rtest : String → String → Option Bool)
    (words : List BannedWord) (responses : Nat → List Illust) (rnd : Nat → ℚ)
    (shuf : Nat → Nat → Nat) (required : Nat) :
    Nat → Nat → SearchAcc → ExtractResult
  | 0, _, st => finishResult required st
  | fuel + 1, attempt, st =>
    let maxOffset := maxOffsetAt st.offsetLevel
    let _randomOffset := if 0 < maxOffset then jsRandInt (rnd attempt) maxOffset else 0
    let illusts := responses attempt
    let cur := extractTopSafe cfg rtest words (shuf attempt) illusts true
    let pool := mergeInto st.pool cur.illusts
    let st2 : SearchAcc :=
      ⟨pool, st.scanned + cur.totalScanned, st.r18 + cur.r18Filtered,
        st.sens + cur.sensitiveFiltered, st.banned + cur.bannedFiltered, st.offsetLevel⟩
    if required ≤ pool.length then finishResult required st2
    else if illusts.length = 0 then
      let st3 : SearchAcc := { st2 with offsetLevel := st2.offsetLevel + 1 }
      if maxOffset = 0 then finishResult required st3
      else searchGo cfg rtest words responses rnd shuf required fuel (attempt + 1) st3
    else searchGo cfg rtest words responses rnd shuf required fuel (attempt + 1) st2

/-- `searchTop3` (`pixiv.service.ts`, lines 144–216): retry budget 5,
required count `resultCount ?? 3`, empty initial pool and tallies, offset
level 0. -/
def searchTop3 (cfg : Config) (rtest : String → String → Option Bool)
    (words : List BannedWord) (responses : Nat → List Illust) (rnd : Nat → ℚ)
    (shuf : Nat → Nat → Nat) : ExtractResult :=
  searchGo cfg rtest words responses rnd shuf (cfg.resultCount.getD 3) 5 0 ⟨[], 0, 0, 0, 0, 0⟩

/-- Why an orchestrator run stopped: pool reached the target, an
unproductive attempt triggered the early break, or the retry budget ran out. -/
inductive StopReason where
  | satisfied
  | emptyBreak
  | budget
  deriving DecidableEq, Repr

/-- Ghost record of one executed `searchTop3` attempt: the attempt index,
the offset level and ceiling in force, the offset drawn, and whether the raw
upstream batch was empty. -/
structure AttemptInfo where
  idx : Nat
  level : Nat
  maxOff : Nat
  off : Nat
  rawEmpty : Bool
  deriving DecidableEq, Repr

/-- Ghost-instrumented orchestrator outcome: the returned result plus the
number of upstream calls issued, the per-attempt trace, each attempt's
extracted list, and the stop reason. -/
structure SearchOut where
  result : ExtractResult
  calls : Nat
  trace : List AttemptInfo
  extracted : List (List SafeIllust)
  reason : StopReason
  deriving Repr

/-- `searchGo` with ghost observations; the computed `result` follows
`searchGo` exactly. -/
def searchGoI (cfg : Config) (rtest : String → String → Option Bool)
    (words : List BannedWord) (responses : Nat → List Illust) (rnd : Nat → ℚ)
    (shuf : Nat → Nat → Nat) (required : Nat) :
    Nat → Nat → SearchAcc → SearchOut
  | 0, _, st => ⟨finishResult required st, 0, [], [], StopReason.budget⟩
  | fuel + 1, attempt, st =>
    let maxOffset := maxOffsetAt st.offsetLevel
    let randomOffset := if 0 < maxOffset then jsRandInt (rnd attempt) maxOffset else 0
    let illusts := responses attempt
    let cur := extractTopSafe cfg rtest words (shuf attempt) illusts true
    let pool := mergeInto st.pool cur.illusts
    let info : AttemptInfo :=
      ⟨attempt, st.offsetLevel, maxOffset, randomOffset, decide (illusts.length = 0)⟩
    let st2 : SearchAcc :=
      ⟨pool, st.scanned + cur.totalScanned, st.r18 + cur.r18Filtered,
        st.sens + cur.sensitiveFiltered, st.banned + cur.bannedFiltered, st.offsetLevel⟩
    if required ≤ pool.length then
      ⟨finishResult required st2, 1, [info], [cur.illusts], StopReason.satisfied⟩
    else if illusts.length = 0 then
      let st3 : SearchAcc := { st2 with offsetLevel := st2.offsetLevel + 1 }
      if maxOffset = 0 then
        ⟨finishResult required st3, 1, [info], [cur.illusts], StopReason.emptyBreak⟩
      else
        let rest := searchGoI cfg rtest words responses rnd shuf required fuel (attempt + 1) st3
        ⟨rest.result, rest.calls + 1, info :: rest.trace, cur.illusts :: rest.extracted, rest.reason⟩
    else
      let rest := searchGoI cfg rtest words responses rnd shuf required fuel (attempt + 1) st2
      ⟨rest.result, rest.calls + 1, info :: rest.trace, cur.illusts :: rest.extracted, rest.reason⟩

/-- Instrumented `searchTop3`. -/
def searchTop3I (cfg : Config) (rtest : String → String → Option Bool)
    (words : List BannedWord) (responses : Nat → List Illust) (rnd : Nat → ℚ)
    (shuf : Nat → Nat → Nat) : SearchOut :=
  searchGoI cfg rtest words responses rnd shuf (cfg.resultCount.getD 3) 5 0 ⟨[], 0, 0, 0, 0, 0⟩

/-- The retry loop of `getRandomTop3` (`pixiv.service.ts`, lines 234–274):
no offsets; the early break fires when the attempt's *extracted* list is
empty and none of the three filters rejected anything. -/
def recGo (cfg : Config) (rtest : String → String → Option Bool)
    (words : List BannedWord) (responses : Nat → List Illust)
    (shuf : Nat → Nat → Nat) (required : Nat) :
    Nat → Nat → SearchAcc → ExtractResult
  | 0, _, st => finishResult required st
  | fuel + 1, attempt, st =>
    let illusts := responses attempt
    let cur := extractTopSafe cfg rtest words (shuf attempt) illusts true
    let pool := mergeInto st.pool cur.illusts
    let st2 : SearchAcc :=
      ⟨pool, st.scanned + cur.totalScanned, st.r18 + cur.r18Filtered,
        st.sens + cur.sensitiveFiltered, st.banned + cur.bannedFiltered, 0⟩
    if required ≤ pool.length then finishResult required st2
    else if cur.illusts.length = 0 ∧
        cur.r18Filtered + cur.sensitiveFiltered + cur.bannedFiltered = 0 then
      finishResult required st2
    else recGo cfg rtest words responses shuf required fuel (attempt + 1) st2

/-- `getRandomTop3` (`pixiv.service.ts`, lines 222–283): retry budget 3. -/
def getRandomTop3 (cfg : Config) (rtest : String → String → Option Bool)
    (words : List BannedWord) (responses : Nat → List Illust)
    (shuf : Nat → Nat → Nat) : ExtractResult :=
  recGo cfg rtest words responses shuf (cfg.resultCount.getD 3) 3 0 ⟨[], 0, 0, 0, 0, 0⟩

/-- Ghost-instrumented `getRandomTop3` outcome. -/
structure RecOut where
  result : ExtractResult
  calls : Nat
  extracted : List (List SafeIllust)
  reason : StopReason
  deriving Repr

/-- `recGo` with ghost observations; `result` follows `recGo` exactly. -/
def recGoI (cfg : Config) (rtest : String → String → Option Bool)
    (words : List BannedWord) (responses : Nat → List Illust)
    (shuf : Nat → Nat → Nat) (required : Nat) :
    Nat → Nat → SearchAcc → RecOut
  | 0, _, st => ⟨finishResult required st, 0, [], StopReason.budget⟩
  | fuel + 1, attempt, st =>
    let illusts := responses attempt
    let cur := extractTopSafe cfg rtest words (shuf attempt) illusts true
    let pool := mergeInto st.pool cur.illusts
    let st2 : SearchAcc :=
      ⟨pool, st.scanned + cur.totalScanned, st.r18 + cur.r18Filtered,
        st.sens + cur.sensitiveFiltered, st.banned + cur.bannedFiltered, 0⟩
    if required ≤ pool.length then
      ⟨finishResult required st2, 1, [cur.illusts], StopReason.satisfied⟩
    else if cur.illusts.length = 0 ∧
        cur.r18Filtered + cur.sensitiveFiltered + cur.bannedFiltered = 0 then
      ⟨finishResult required st2, 1, [cur.illusts], StopReason.emptyBreak⟩
    else
      let rest := recGoI cfg rtest words responses shuf required fuel (attempt + 1) st2
      ⟨rest.result, rest.calls + 1, cur.illusts :: rest.extracted, rest.reason⟩

/-- Instrumented `getRandomTop3`. -/
def getRandomTop3I (cfg : Config) (rtest : String → String → Option Bool)
    (words : List BannedWord) (responses : Nat → List Illust)
    (shuf : Nat → Nat → Nat) : RecOut :=
  recGoI cfg rtest words responses shuf (cfg.resultCount.getD 3) 3 0 ⟨[], 0, 0, 0, 0, 0⟩

/-! Supporting lemmas about first-match search over lists. -/

theorem filter_find?_comm {α : Type} (p q : α → Bool) (l : List α) :
    (l.filter p).find? q = l.find? fun w => p w && q w := by
  induction l with
  | nil => rfl
  | cons x xs ih =>
    by_cases hp : p x
    · by_cases hq : q x
      · simp [List.filter_cons, hp, hq]
      · simp [List.filter_cons, hp, hq, ih]
    · simp [List.filter_cons, hp, ih]

theorem find?_eq_some_split {α : Type} (p : α → Bool) :
    ∀ (l : List α) (w : α), l.find? p = some w →
      ∃ l₁ l₂, l = l₁ ++ w :: l₂ ∧ ∀ u ∈ l₁, p u = false := by
  intro l
  induction l with
  | nil => intro w h; cases h
  | cons x xs ih =>
    intro w h
    by_cases hp : p x
    · rw [List.find?_cons_of_pos _ hp] at h
      cases h
      exact ⟨[], xs, rfl, by simp⟩
    · rw [List.find?_cons_of_neg _ hp] at h
      obtain ⟨l₁, l₂, rfl, hl₁⟩ := ih w h
      refine ⟨x :: l₁, l₂, rfl, ?_⟩
      intro u hu
      rcases List.mem_cons.mp hu with rfl | hu
      · simpa using hp
      · exact hl₁ u hu

/-- Claim C6: for every rule set and every input text, `checkKeyword`
returns the first enabled rule, in stored list order, whose pattern matches
the text (matching per `matchesRule`: case-insensitive comparison for
`exact`, case-insensitive substring containment for `fuzzy`, and the
case-insensitive regex oracle applied to the original-case text for
`regex`), and returns `none` exactly when no enabled rule matches; a
disabled rule never matches. -/
theorem checkKeyword_first_enabled_match (rtest : String → String → Option Bool)
    (words : List BannedWord) (text : String) :
    checkKeyword rtest words text
        = words.find? (fun w => w.enabled && matchesRule rtest text w) ∧
    (∀ w, checkKeyword rtest words text = some w →
      w.enabled = true ∧ matchesRule rtest text w = true ∧
      ∃ l₁ l₂, words = l₁ ++ w :: l₂ ∧
        ∀ u ∈ l₁, ¬ (u.enabled = true ∧ matchesRule rtest text u = true)) ∧
    (checkKeyword rtest words text = none ↔
      ∀ w ∈ words, w.enabled = true → matchesRule rtest text w = false) := by
  have hfuse : checkKeyword rtest words text
      = words.find? (fun w => w.enabled && matchesRule rtest text w) := by
    unfold checkKeyword matchText
    exact filter_find?_comm _ _ _
  refine ⟨hfuse, ?_, ?_⟩
  · intro w hw
    rw [hfuse] at hw
    have hmem : w.enabled = true ∧ matchesRule rtest text w = true := by
      simpa using List.find?_some hw
    rcases hmem with ⟨he, hm⟩
    obtain ⟨l₁, l₂, hsplit, hbefore⟩ := find?_eq_some_split _ words w hw
    refine ⟨he, hm, l₁, l₂, hsplit, ?_⟩
    intro u hu hcontra
    have := hbefore u hu
    rw [hcontra.1, hcontra.2] at this
    simp at this
  · rw [hfuse, List.find?_eq_none]
    constructor
    · intro h w hw he
      have := h w hw
      simpa [he] using this
    · intro h w hw
      by_cases he : w.enabled = true
      · simp [he, h w hw he]
      · simp [Bool.eq_false_iff.mpr he]

/-- Claim C7: an `add` or `update` whose effective match type is `regex`
and whose effective pattern fails to compile throws a descriptive error and
leaves both the in-memory rule list and the persisted list completely
unchanged: any error from either operation leaves the state untouched,
`add` with an uncompilable pattern returns the exact descriptive error
without touching the state, and `update` on a found rule whose effective
match type is `regex` and whose effective pattern fails to compile likewise
returns the exact descriptive error without touching the state. -/
theorem bannedWrite_regex_atomic (compile : String → Bool) (st : BWState)
    (newId : String) (now : Nat) (pattern : String) (matchType : MatchType)
    (wid : String) (upat : Option String) (umt : Option MatchType) (uen : Option Bool) :
    (∀ e, (addWord compile st newId now pattern matchType).2 = Except.error e →
        (addWord compile st newId now pattern matchType).1 = st) ∧
    (∀ e, (updateWord compile st wid upat umt uen).2 = Except.error e →
        (updateWord compile st wid upat umt uen).1 = st) ∧
    (compile pattern = false →
        addWord compile st newId now pattern MatchType.regex
          = (st, Except.error ("正则表达式语法错误: " ++ pattern))) ∧
    (∀ w, st.words[List.findIdx (fun x => x.id == wid) st.words]? = some w →
      umt.getD w.matchType = MatchType.regex →
      compile (upat.getD w.pattern) = false →
      updateWord compile st wid upat umt uen
        = (st, Except.error ("正则表达式语法错误: " ++ upat.getD w.pattern))) := by
  refine ⟨?_, ?_, ?_, ?_⟩
  · intro e he
    by_cases hc : matchType = MatchType.regex ∧ compile pattern = false
    · simp [addWord, hc]
    · simp [addWord, hc] at he
  · intro e he
    rcases hw : st.words[List.findIdx (fun w => w.id == wid) st.words]? with _ | w
    · simp [updateWord, hw] at he
    · by_cases hc : (umt.getD w.matchType) = MatchType.regex ∧ compile (upat.getD w.pattern) = false
      · simp [updateWord, hw, hc]
      · simp [updateWord, hw, hc] at he
  · intro hc
    unfold addWord
    simp [hc]
  · intro w hw hmt hcp
    simp [updateWord, hw, hmt, hcp]

/-- Claim C7 witness: the spec's scenario — the regex pattern `"("`
(modelled by a compilation oracle rejecting it) submitted via `add` fails
with the descriptive error and the rule list is unchanged; likewise an
`update` that turns an existing rule into a `regex` rule with the pattern
`"("` fails with the descriptive error and the state is unchanged. -/
theorem bannedWrite_regex_atomic_witness :
    (fun _ : String => false) "(" = false ∧
    addWord (fun _ => false) ⟨[], []⟩ "w1" 0 "(" MatchType.regex
      = (⟨[], []⟩, Except.error "正则表达式语法错误: (") ∧
    updateWord (fun _ => false)
        ⟨[⟨"w1", "x", MatchType.exact, true, 0⟩], [⟨"w1", "x", MatchType.exact, true, 0⟩]⟩
        "w1" (some "(") (some MatchType.regex) none
      = (⟨[⟨"w1", "x", MatchType.exact, true, 0⟩], [⟨"w1", "x", MatchType.exact, true, 0⟩]⟩,
          Except.error "正则表达式语法错误: (") :=
  ⟨rfl,
    (bannedWrite_regex_atomic (fun _ => false) ⟨[], []⟩ "w1" 0 "(" MatchType.regex
      "" none none none).2.2.1 rfl,
    (bannedWrite_regex_atomic (fun _ => false)
        ⟨[⟨"w1", "x", MatchType.exact, true, 0⟩], [⟨"w1", "x", MatchType.exact, true, 0⟩]⟩
        "w1" 0 "(" MatchType.regex "w1" (some "(") (some MatchType.regex) none).2.2.2
      ⟨"w1", "x", MatchType.exact, true, 0⟩ (by decide) rfl rfl⟩

/-! Rate-limiter lemmas. -/

theorem pruneWindow_eq_filter (now : Int) :
    ∀ l : List Int, l.Pairwise (· ≤ ·) →
      pruneWindow now l = l.filter fun t => decide (now - 60000 < t) := by
  intro l
  induction l with
  | nil => intro _; rfl
  | cons x xs ih =>
    intro h
    rcases List.pairwise_cons.mp h with ⟨hx, hxs⟩
    by_cases hc : x ≤ now - 60000
    · have hnot : ¬ (now - 60000 < x) := by omega
      simp [pruneWindow, hc, hnot, ih hxs]
    · have hlt : now - 60000 < x := by omega
      have htail : xs.filter (fun t => decide (now - 60000 < t)) = xs := by
        refine List.filter_eq_self.mpr ?_
        intro a ha
        have := hx a ha
        simp only [decide_eq_true_eq]
        omega
      simp [pruneWindow, hc, hlt, htail]

/-- Claim C8: each rate-limit check first removes the timestamps that have
left the 60-second window, then admits the call and records its timestamp
when the remaining count is below the limit, and otherwise rejects without
recording; a non-positive limit disables the gate entirely; and in the
spec's scenario (limit 2, three checks within one second, then a check 61
seconds after the first) the first two checks are admitted, the third
rejected, and the late check admitted again. -/
theorem rateLimiter_sliding_window (limit now : Int) (ts : List Int)
    (hpos : 0 < limit) (hsorted : ts.Pairwise (· ≤ ·)) :
    (pruneWindow now ts = ts.filter fun t => decide (now - 60000 < t)) ∧
    ((isRateLimited limit now ts).1 = false ↔
      ((ts.filter fun t => decide (now - 60000 < t)).length : Int) < limit) ∧
    ((isRateLimited limit now ts).1 = false →
      (isRateLimited limit now ts).2
        = (ts.filter fun t => decide (now - 60000 < t)) ++ [now]) ∧
    ((isRateLimited limit now ts).1 = true →
      (isRateLimited limit now ts).2 = ts.filter fun t => decide (now - 60000 < t)) ∧
    (∀ l0 : Int, l0 ≤ 0 → isRateLimited l0 now ts = (false, ts)) ∧
    (isRateLimited 2 0 [] = (false, [0])) ∧
    (isRateLimited 2 500 [0] = (false, [0, 500])) ∧
    (isRateLimited 2 1000 [0, 500] = (true, [0, 500])) ∧
    (isRateLimited 2 61000 [0, 500] = (false, [61000])) := by
  have hprune := pruneWindow_eq_filter now ts hsorted
  have hnle : ¬ limit ≤ 0 := by omega
  have hrun : isRateLimited limit now ts
      = if limit ≤ (((ts.filter fun t => decide (now - 60000 < t)).length : Int)) then
          (true, ts.filter fun t => decide (now - 60000 < t))
        else (false, (ts.filter fun t => decide (now - 60000 < t)) ++ [now]) := by
    simp [isRateLimited, hnle, hprune]
  by_cases hfull : limit ≤ (((ts.filter fun t => decide (now - 60000 < t)).length : Int))
  · rw [if_pos hfull] at hrun
    refine ⟨hprune, ?_, ?_, ?_, ?_, by decide, by decide, by decide, by decide⟩
    · rw [hrun]; simp; omega
    · rw [hrun]; intro h; simp at h
    · rw [hrun]; intro _; rfl
    · intro l0 hl0; simp [isRateLimited, hl0]
  · rw [if_neg hfull] at hrun
    refine ⟨hprune, ?_, ?_, ?_, ?_, by decide, by decide, by decide, by decide⟩
    · rw [hrun]; simp; omega
    · rw [hrun]; intro _; rfl
    · rw [hrun]; intro h; simp at h
    · intro l0 hl0; simp [isRateLimited, hl0]

/-- Claim C8 witness: instantiating the rate-limiter theorem at limit 2
with an empty, trivially sorted window. -/
theorem rateLimiter_sliding_window_witness :
    (0 : Int) < 2 ∧ isRateLimited 2 1000 [0, 500] = (true, [0, 500]) :=
  ⟨by decide, (rateLimiter_sliding_window 2 0 [] (by decide) (by decide)).2.2.2.2.2.2.2.1⟩

/-- Claim C9: calling `downloadImage` twice with the same URL returns the
same local path both times and performs at most one network download in
total — exactly one when the file is not already cached, the second call
being a cache hit on the file the first call created. -/
theorem downloadImage_idempotent (tmpDir url : String) (fs0 : List String) :
    (downloadImage tmpDir url (downloadImage tmpDir url fs0).2.1).1
        = (downloadImage tmpDir url fs0).1 ∧
    (downloadImage tmpDir url fs0).2.2
        + (downloadImage tmpDir url (downloadImage tmpDir url fs0).2.1).2.2 ≤ 1 ∧
    (¬ (tmpDir ++ "/" ++ urlBasename url) ∈ fs0 →
      (downloadImage tmpDir url fs0).2.2
        + (downloadImage tmpDir url (downloadImage tmpDir url fs0).2.1).2.2 = 1) := by
  by_cases hmem : (tmpDir ++ "/" ++ urlBasename url) ∈ fs0
  · simp [downloadImage, hmem]
  · have h2 : (tmpDir ++ "/" ++ urlBasename url)
        ∈ fs0 ++ [tmpDir ++ "/" ++ urlBasename url] := by simp
    simp [downloadImage, hmem, h2]

/-- Claim C9 witness: a fresh cache, one URL, two calls — the same path
twice and exactly one download. -/
theorem downloadImage_idempotent_witness :
    ¬ ("tmp/napcat-pixiv-plugin" ++ "/" ++ urlBasename "http://x/a.png") ∈ ([] : List String) ∧
    (downloadImage "tmp/napcat-pixiv-plugin" "http://x/a.png" []).2.2
      + (downloadImage "tmp/napcat-pixiv-plugin" "http://x/a.png"
          (downloadImage "tmp/napcat-pixiv-plugin" "http://x/a.png" []).2.1).2.2 = 1 :=
  ⟨by simp, (downloadImage_idempotent "tmp/napcat-pixiv-plugin" "http://x/a.png" []).2.2 (by simp)⟩

/-! Extraction-stage lemmas. -/

/-- A raw item that passes every filter and resolves a medium image URL. -/
def sampleGood (i : Int) : Illust :=
  ⟨i, "t", some 0, some 0, [], none, none, some "u", some "a"⟩

/-- A raw item that passes every filter but has no resolvable image URL. -/
def sampleNoUrl : Illust :=
  ⟨7, "t", some 0, some 0, [], none, none, none, some "a"⟩

/-- A regex oracle under which no pattern ever matches. -/
def rtNone : String → String → Option Bool := fun _ _ => some false

/-- The default configuration: R-18 and sensitive content disallowed,
`resultCount` unset (so the `?? 3` default applies). -/
def cfgDefault : Config := ⟨false, false, none⟩

theorem swapList_length (l : List Illust) (i j : Nat) :
    (swapList l i j).length = l.length := by
  unfold swapList
  split <;> simp

theorem fisherYatesAux_length (rand : Nat → Nat) :
    ∀ (n : Nat) (l : List Illust), (fisherYatesAux rand n l).length = l.length := by
  intro n
  induction n with
  | zero => intro l; rfl
  | succ i ih =>
    intro l
    rw [fisherYatesAux, ih, swapList_length]

theorem fisherYates_length (rand : Nat → Nat) (l : List Illust) :
    (fisherYates rand l).length = l.length :=
  fisherYatesAux_length rand _ l

theorem extractScanFull_proj (cfg : Config) (rtest : String → String → Option Bool)
    (words : List BannedWord) (count : Nat) :
    ∀ (l : List Illust) (res : List SafeIllust) (r s b : Nat),
      extractScanGo cfg rtest words count l res r s b
        = ((extractScanFull cfg rtest words count l res r s b).1,
           (extractScanFull cfg rtest words count l res r s b).2.1,
           (extractScanFull cfg rtest words count l res r s b).2.2.1,
           (extractScanFull cfg rtest words count l res r s b).2.2.2.1) := by
  intro l
  induction l with
  | nil => intro res r s b; rfl
  | cons it rest ih =>
    intro res r s b
    by_cases h1 : count ≤ res.length
    · simp [extractScanGo, extractScanFull, h1]
    · by_cases h2 : rejectsR18 cfg it
      · simp [extractScanGo, extractScanFull, h1, h2, ih]
      · by_cases h3 : rejectsSensitive cfg it
        · simp [extractScanGo, extractScanFull, h1, h2, h3, ih]
        · by_cases h4 : (checkIllust rtest words it).isSome
          · simp [extractScanGo, extractScanFull, h1, h2, h3, h4, ih]
          · rcases hurl : resolveImageUrl it with _ | u
            · rcases hrec : extractScanFull cfg rtest words count rest res r s b with
                ⟨res2, r2, s2, b2, d2, u2⟩
              have := ih res r s b
              rw [hrec] at this
              simp [extractScanGo, extractScanFull, h1, h2, h3, h4, hurl, hrec, this]
            · simp [extractScanGo, extractScanFull, h1, h2, h3, h4, hurl, ih]

theorem extractScanFull_sum (cfg : Config) (rtest : String → String → Option Bool)
    (words : List BannedWord) (count : Nat) :
    ∀ (l : List Illust) (res : List SafeIllust) (r s b : Nat),
      (extractScanFull cfg rtest words count l res r s b).1.length
        + (extractScanFull cfg rtest words count l res r s b).2.1
        + (extractScanFull cfg rtest words count l res r s b).2.2.1
        + (extractScanFull cfg rtest words count l res r s b).2.2.2.1
        + (extractScanFull cfg rtest words count l res r s b).2.2.2.2.1
        + (extractScanFull cfg rtest words count l res r s b).2.2.2.2.2
        = res.length + r + s + b + l.length := by
  intro l
  induction l with
  | nil => intro res r s b; simp [extractScanFull]
  | cons it rest ih =>
    intro res r s b
    by_cases h1 : count ≤ res.length
    · simp [extractScanFull, h1]
    · by_cases h2 : rejectsR18 cfg it
      · simp [extractScanFull, h1, h2]
        have := ih res (r + 1) s b
        omega
      · by_cases h3 : rejectsSensitive cfg it
        · simp [extractScanFull, h1, h2, h3]
          have := ih res r (s + 1) b
          omega
        · by_cases h4 : (checkIllust rtest words it).isSome
          · simp [extractScanFull, h1, h2, h3, h4]
            have := ih res r s (b + 1)
            omega
          · rcases hurl : resolveImageUrl it with _ | u
            · rcases hrec : extractScanFull cfg rtest words count rest res r s b with
                ⟨res2, r2, s2, b2, d2, u2⟩
              have := ih res r s b
              rw [hrec] at this
              simp [extractScanFull, h1, h2, h3, h4, hurl, hrec]
              simp at this
              omega
            · simp [extractScanFull, h1, h2, h3, h4, hurl]
              have := ih (res ++ [mkSafe it u]) r s b
              simp at this
              omega

theorem extractScanFull_res_bound (cfg : Config) (rtest : String → String → Option Bool)
    (words : List BannedWord) (count : Nat) :
    ∀ (l : List Illust) (res : List SafeIllust) (r s b : Nat), res.length ≤ count →
      (extractScanFull cfg rtest words count l res r s b).1.length ≤ count ∧
      ((extractScanFull cfg rtest words count l res r s b).2.2.2.2.2 ≠ 0 →
        (extractScanFull cfg rtest words count l res r s b).1.length = count) := by
  intro l
  induction l with
  | nil =>
    intro res r s b hres
    refine ⟨by simpa [extractScanFull] using hres, ?_⟩
    intro h
    simp [extractScanFull] at h
  | cons it rest ih =>
    intro res r s b hres
    by_cases h1 : count ≤ res.length
    · have : res.length = count := le_antisymm hres h1
      simp [extractScanFull, h1, this]
    · by_cases h2 : rejectsR18 cfg it
      · simpa [extractScanFull, h1, h2] using ih res (r + 1) s b hres
      · by_cases h3 : rejectsSensitive cfg it
        · simpa [extractScanFull, h1, h2, h3] using ih res r (s + 1) b hres
        · by_cases h4 : (checkIllust rtest words it).isSome
          · simpa [extractScanFull, h1, h2, h3, h4] using ih res r s (b + 1) hres
          · rcases hurl : resolveImageUrl it with _ | u
            · rcases hrec : extractScanFull cfg rtest words count rest res r s b with
                ⟨res2, r2, s2, b2, d2, u2⟩
              have := ih res r s b hres
              rw [hrec] at this
              simpa [extractScanFull, h1, h2, h3, h4, hurl, hrec] using this
            · have hlt : res.length < count := Nat.lt_of_not_le h1
              have hnew : (res ++ [mkSafe it u]).length ≤ count := by
                simp
                omega
              simpa [extractScanFull, h1, h2, h3, h4, hurl]
                using ih (res ++ [mkSafe it u]) r s b hnew

/-- Claim C1 (amended): for every raw input batch, the three rejection
tallies plus the number of accepted items plus the number of items dropped
for having no resolvable image URL plus the number of items left unscanned
by the early stop sum to `totalScanned`, which equals the input batch
length; items are left unscanned only when the accepted count has already
reached the configured target (so the original three-way sum law holds
exactly when the scan exhausts the batch).  The ghost-instrumented run
computes the same `ExtractResult` as `extractTopSafe`. -/
theorem extract_tally_conservation (cfg : Config) (rtest : String → String → Option Bool)
    (words : List BannedWord) (rand : Nat → Nat) (batch : List Illust) (shuffle : Bool) :
    (extractTopSafeFull cfg rtest words rand batch shuffle).result
        = extractTopSafe cfg rtest words rand batch shuffle ∧
    (extractTopSafeFull cfg rtest words rand batch shuffle).result.totalScanned
        = batch.length ∧
    (extractTopSafeFull cfg rtest words rand batch shuffle).result.r18Filtered
      + (extractTopSafeFull cfg rtest words rand batch shuffle).result.sensitiveFiltered
      + (extractTopSafeFull cfg rtest words rand batch shuffle).result.bannedFiltered
      + (extractTopSafeFull cfg rtest words rand batch shuffle).result.illusts.length
      + (extractTopSafeFull cfg rtest words rand batch shuffle).dropped
      + (extractTopSafeFull cfg rtest words rand batch shuffle).unscanned
      = (extractTopSafeFull cfg rtest words rand batch shuffle).result.totalScanned ∧
    ((extractTopSafeFull cfg rtest words rand batch shuffle).unscanned ≠ 0 →
      (extractTopSafeFull cfg rtest words rand batch shuffle).result.illusts.length
        = cfg.resultCount.getD 3) ∧
    (extractTopSafeFull cfg rtest words rand batch shuffle).result.illusts.length
        ≤ cfg.resultCount.getD 3 := by
  have hlen : (if shuffle && decide (0 < batch.length) then fisherYates rand batch
      else batch).length = batch.length := by
    split
    · exact fisherYates_length rand batch
    · rfl
  have hproj := extractScanFull_proj cfg rtest words (cfg.resultCount.getD 3)
    (if shuffle && decide (0 < batch.length) then fisherYates rand batch else batch) [] 0 0 0
  have hsum := extractScanFull_sum cfg rtest words (cfg.resultCount.getD 3)
    (if shuffle && decide (0 < batch.length) then fisherYates rand batch else batch) [] 0 0 0
  have hbound := extractScanFull_res_bound cfg rtest words (cfg.resultCount.getD 3)
    (if shuffle && decide (0 < batch.length) then fisherYates rand batch else batch) [] 0 0 0
    (by simp)
  rcases hfull : extractScanFull cfg rtest words (cfg.resultCount.getD 3)
      (if shuffle && decide (0 < batch.length) then fisherYates rand batch else batch)
      [] 0 0 0 with ⟨res, r, s, b, d, u⟩
  rw [hfull] at hproj hsum hbound
  simp only [extractTopSafe, extractTopSafeFull, hproj, hfull, hlen]
  simp at hsum hbound hlen ⊢
  exact ⟨by omega, hbound.2, hbound.1⟩

/-- Claim C1 counterexample: a batch of 4 clean items with resolvable URLs
under the default target of 3 — three items are accepted, no filter fires
and nothing is dropped for a missing URL, so the claimed sum is 3 while
`totalScanned` is the full batch length 4. -/
theorem extract_tally_counterexample :
    (extractTopSafe cfgDefault rtNone [] (fun _ => 0)
        [sampleGood 1, sampleGood 2, sampleGood 3, sampleGood 4] false).r18Filtered
      + (extractTopSafe cfgDefault rtNone [] (fun _ => 0)
        [sampleGood 1, sampleGood 2, sampleGood 3, sampleGood 4] false).sensitiveFiltered
      + (extractTopSafe cfgDefault rtNone [] (fun _ => 0)
        [sampleGood 1, sampleGood 2, sampleGood 3, sampleGood 4] false).bannedFiltered
      + (extractTopSafe cfgDefault rtNone [] (fun _ => 0)
        [sampleGood 1, sampleGood 2, sampleGood 3, sampleGood 4] false).illusts.length
      + (extractTopSafeFull cfgDefault rtNone [] (fun _ => 0)
        [sampleGood 1, sampleGood 2, sampleGood 3, sampleGood 4] false).dropped = 3 ∧
    (extractTopSafe cfgDefault rtNone [] (fun _ => 0)
        [sampleGood 1, sampleGood 2, sampleGood 3, sampleGood 4] false).totalScanned = 4 := by
  constructor <;> decide

/-- Claim C1 witness: on the counterexample batch the instrumented run
leaves one item unscanned, and the amended law forces the accepted count to
equal the target 3. -/
theorem extract_tally_conservation_witness :
    (extractTopSafeFull cfgDefault rtNone [] (fun _ => 0)
        [sampleGood 1, sampleGood 2, sampleGood 3, sampleGood 4] false).unscanned ≠ 0 ∧
    (extractTopSafeFull cfgDefault rtNone [] (fun _ => 0)
        [sampleGood 1, sampleGood 2, sampleGood 3, sampleGood 4] false).result.illusts.length
      = cfgDefault.resultCount.getD 3 :=
  ⟨by decide,
    (extract_tally_conservation cfgDefault rtNone [] (fun _ => 0)
      [sampleGood 1, sampleGood 2, sampleGood 3, sampleGood 4] false).2.2.2.1 (by decide)⟩

/-! Accumulation-pool lemmas: de-duplicating merge keeps ids unique and the
first-seen entry. -/

theorem poolHas_iff (pool : List SafeIllust) (i : Int) :
    poolHas pool i = true ↔ i ∈ pool.map fun x => x.id := by
  unfold poolHas
  rw [List.any_eq_true]
  simp [List.mem_map]

theorem mergeInto_cons (pool x : _) (l : List SafeIllust) :
    mergeInto pool (x :: l) = mergeInto (if poolHas pool x.id then pool else pool ++ [x]) l := by
  by_cases hc : poolHas pool x.id <;> simp [mergeInto, hc]

theorem mergeInto_nodup :
    ∀ (l pool : List SafeIllust), ((pool.map fun x => x.id).Nodup) →
      (((mergeInto pool l).map fun x => x.id).Nodup) := by
  intro l
  induction l with
  | nil => intro pool h; exact h
  | cons x xs ih =>
    intro pool h
    rw [mergeInto_cons]
    by_cases hc : poolHas pool x.id
    · rw [if_pos hc]
      exact ih pool h
    · rw [if_neg hc]
      refine ih (pool ++ [x]) ?_
      rw [List.map_append]
      refine List.Nodup.append h (by simp) ?_
      intro a ha hb
      simp at hb
      subst hb
      exact hc ((poolHas_iff pool x.id).mpr ha)

theorem findById_append (p q : List SafeIllust) (i : Int) :
    findById (p ++ q) i = (findById p i).or (findById q i) :=
  List.find?_append

theorem poolHas_findById (pool : List SafeIllust) (i : Int)
    (h : poolHas pool i = true) : (findById pool i).isSome := by
  unfold poolHas at h
  unfold findById
  rw [List.find?_isSome]
  simpa [List.any_eq_true] using h

theorem findById_mergeInto :
    ∀ (l pool : List SafeIllust) (i : Int),
      findById (mergeInto pool l) i = findById (pool ++ l) i := by
  intro l
  induction l with
  | nil => intro pool i; simp [mergeInto]
  | cons x xs ih =>
    intro pool i
    rw [mergeInto_cons]
    by_cases hc : poolHas pool x.id
    · rw [if_pos hc, ih pool i, findById_append, findById_append]
      by_cases hi : x.id = i
      · have hsome : (findById pool i).isSome := poolHas_findById pool i (hi ▸ hc)
        rcases hfind : findById pool i with _ | v
        · rw [hfind] at hsome
          cases hsome
        · simp
      · have hskip : findById (x :: xs) i = findById xs i := by
          unfold findById
          rw [List.find?_cons_of_neg]
          simp [hi]
        rw [hskip]
    · rw [if_neg hc, ih (pool ++ [x]) i, List.append_assoc, List.singleton_append]

theorem findById_foldl :
    ∀ (ls : List (List SafeIllust)) (pool : List SafeIllust) (i : Int),
      findById (ls.foldl mergeInto pool) i = findById (pool ++ ls.flatten) i := by
  intro ls
  induction ls with
  | nil => intro pool i; simp
  | cons l ls ih =>
    intro pool i
    calc findById ((l :: ls).foldl mergeInto pool) i
        = findById (ls.foldl mergeInto (mergeInto pool l)) i := by rw [List.foldl_cons]
      _ = findById (mergeInto pool l ++ ls.flatten) i := ih (mergeInto pool l) i
      _ = findById ((pool ++ l) ++ ls.flatten) i := by
            rw [findById_append, findById_mergeInto, ← findById_append]
      _ = findById (pool ++ (l :: ls).flatten) i := by
            rw [List.append_assoc, ← List.flatten_cons]

theorem foldl_mergeInto_nodup :
    ∀ (ls : List (List SafeIllust)) (pool : List SafeIllust),
      ((pool.map fun x => x.id).Nodup) →
      (((ls.foldl mergeInto pool).map fun x => x.id).Nodup) := by
  intro ls
  induction ls with
  | nil => intro pool h; exact h
  | cons l ls ih => intro pool h; exact ih (mergeInto pool l) (mergeInto_nodup l pool h)

theorem findById_of_mem :
    ∀ (pool : List SafeIllust) (it : SafeIllust),
      it ∈ pool → ((pool.map fun x => x.id).Nodup) → findById pool it.id = some it := by
  intro pool
  induction pool with
  | nil => intro it h; cases h
  | cons x xs ih =>
    intro it hmem hnd
    have hnd' : x.id ∉ (xs.map fun y => y.id) ∧ ((xs.map fun y => y.id).Nodup) := by
      simpa using hnd
    rcases List.mem_cons.mp hmem with rfl | hmem
    · unfold findById
      rw [List.find?_cons_of_pos]
      simp
    · have hxid : ¬ x.id = it.id := by
        intro he
        exact hnd'.1 (he ▸ List.mem_map_of_mem (fun y => y.id) hmem)
      unfold findById
      rw [List.find?_cons_of_neg _ (by simp [hxid])]
      exact ih it hmem hnd'.2

/-! Orchestrator run lemmas. -/

theorem searchGoI_pool (cfg : Config) (rtest : String → String → Option Bool)
    (words : List BannedWord) (resp : Nat → List Illust) (rnd : Nat → ℚ)
    (shuf : Nat → Nat → Nat) (required : Nat) :
    ∀ (fuel attempt : Nat) (st : SearchAcc),
      (searchGoI cfg rtest words resp rnd shuf required fuel attempt st).result.illusts
        = ((searchGoI cfg rtest words resp rnd shuf required fuel attempt st).extracted.foldl
            mergeInto st.pool).take required := by
  intro fuel
  induction fuel with
  | zero => intro attempt st; simp [searchGoI, finishResult]
  | succ n ih =>
    intro attempt st
    simp only [searchGoI]
    split_ifs
    all_goals first
      | exact ih (attempt + 1) _
      | rfl

theorem searchGoI_calls_le (cfg : Config) (rtest : String → String → Option Bool)
    (words : List BannedWord) (resp : Nat → List Illust) (rnd : Nat → ℚ)
    (shuf : Nat → Nat → Nat) (required : Nat) :
    ∀ (fuel attempt : Nat) (st : SearchAcc),
      (searchGoI cfg rtest words resp rnd shuf required fuel attempt st).calls ≤ fuel := by
  intro fuel
  induction fuel with
  | zero => intro attempt st; simp [searchGoI]
  | succ n ih =>
    intro attempt st
    simp only [searchGoI]
    split_ifs
    all_goals first
      | exact Nat.succ_le_succ (ih (attempt + 1) _)
      | simp

theorem searchGoI_result (cfg : Config) (rtest : String → String → Option Bool)
    (words : List BannedWord) (resp : Nat → List Illust) (rnd : Nat → ℚ)
    (shuf : Nat → Nat → Nat) (required : Nat) :
    ∀ (fuel attempt : Nat) (st : SearchAcc),
      (searchGoI cfg rtest words resp rnd shuf required fuel attempt st).result
        = searchGo cfg rtest words resp rnd shuf required fuel attempt st := by
  intro fuel
  induction fuel with
  | zero => intro attempt st; rfl
  | succ n ih =>
    intro attempt st
    simp only [searchGoI, searchGo]
    split_ifs
    all_goals first
      | exact ih (attempt + 1) _
      | rfl

theorem recGoI_pool (cfg : Config) (rtest : String → String → Option Bool)
    (words : List BannedWord) (resp : Nat → List Illust)
    (shuf : Nat → Nat → Nat) (required : Nat) :
    ∀ (fuel attempt : Nat) (st : SearchAcc),
      (recGoI cfg rtest words resp shuf required fuel attempt st).result.illusts
        = ((recGoI cfg rtest words resp shuf required fuel attempt st).extracted.foldl
            mergeInto st.pool).take required := by
  intro fuel
  induction fuel with
  | zero => intro attempt st; simp [recGoI, finishResult]
  | succ n ih =>
    intro attempt st
    simp only [recGoI]
    split_ifs
    all_goals first
      | exact ih (attempt + 1) _
      | rfl

theorem recGoI_result (cfg : Config) (rtest : String → String → Option Bool)
    (words : List BannedWord) (resp : Nat → List Illust)
    (shuf : Nat → Nat → Nat) (required : Nat) :
    ∀ (fuel attempt : Nat) (st : SearchAcc),
      (recGoI cfg rtest words resp shuf required fuel attempt st).result
        = recGo cfg rtest words resp shuf required fuel attempt st := by
  intro fuel
  induction fuel with
  | zero => intro attempt st; rfl
  | succ n ih =>
    intro attempt st
    simp only [recGoI, recGo]
    split_ifs
    all_goals first
      | exact ih (attempt + 1) _
      | rfl

theorem searchGo_length_le (cfg : Config) (rtest : String → String → Option Bool)
    (words : List BannedWord) (resp : Nat → List Illust) (rnd : Nat → ℚ)
    (shuf : Nat → Nat → Nat) (required : Nat) :
    ∀ (fuel attempt : Nat) (st : SearchAcc),
      (searchGo cfg rtest words resp rnd shuf required fuel attempt st).illusts.length
        ≤ required := by
  intro fuel
  induction fuel with
  | zero =>
    intro attempt st
    exact List.length_take_le required st.pool
  | succ n ih =>
    intro attempt st
    simp only [searchGo]
    split_ifs
    all_goals first
      | exact ih (attempt + 1) _
      | exact List.length_take_le required _

theorem recGo_length_le (cfg : Config) (rtest : String → String → Option Bool)
    (words : List BannedWord) (resp : Nat → List Illust)
    (shuf : Nat → Nat → Nat) (required : Nat) :
    ∀ (fuel attempt : Nat) (st : SearchAcc),
      (recGo cfg rtest words resp shuf required fuel attempt st).illusts.length
        ≤ required := by
  intro fuel
  induction fuel with
  | zero =>
    intro attempt st
    exact List.length_take_le required st.pool
  | succ n ih =>
    intro attempt st
    simp only [recGo]
    split_ifs
    all_goals first
      | exact ih (attempt + 1) _
      | exact List.length_take_le required _

/-- Claim C2: within one acquisition session of either orchestrator, even
across attempts returning overlapping item ids, the returned items list
contains each id at most once, and the entry kept for an id is the first
occurrence of that id across the attempts' extracted lists in attempt order
(later duplicates are dropped, never replacing the existing entry). -/
theorem orchestrator_dedup_first_wins (cfg : Config) (rtest : String → String → Option Bool)
    (words : List BannedWord) (resp : Nat → List Illust) (rnd : Nat → ℚ)
    (shuf : Nat → Nat → Nat) (resp2 : Nat → List Illust) (shuf2 : Nat → Nat → Nat) :
    (((searchTop3I cfg rtest words resp rnd shuf).result.illusts.map fun x => x.id).Nodup ∧
      ∀ it ∈ (searchTop3I cfg rtest words resp rnd shuf).result.illusts,
        findById (searchTop3I cfg rtest words resp rnd shuf).extracted.flatten it.id
          = some it) ∧
    (((getRandomTop3I cfg rtest words resp2 shuf2).result.illusts.map fun x => x.id).Nodup ∧
      ∀ it ∈ (getRandomTop3I cfg rtest words resp2 shuf2).result.illusts,
        findById (getRandomTop3I cfg rtest words resp2 shuf2).extracted.flatten it.id
          = some it) := by
  constructor
  · have hpool := searchGoI_pool cfg rtest words resp rnd shuf (cfg.resultCount.getD 3)
      5 0 ⟨[], 0, 0, 0, 0, 0⟩
    have hnd := foldl_mergeInto_nodup
      (searchGoI cfg rtest words resp rnd shuf (cfg.resultCount.getD 3)
        5 0 ⟨[], 0, 0, 0, 0, 0⟩).extracted [] (by simp)
    constructor
    · simp only [searchTop3I]
      rw [hpool, List.map_take]
      exact hnd.sublist (List.take_sublist _ _)
    · intro it hit
      simp only [searchTop3I] at hit ⊢
      rw [hpool] at hit
      have hmem := List.mem_of_mem_take hit
      have hfind := findById_of_mem _ it hmem hnd
      rw [findById_foldl] at hfind
      simpa using hfind
  · have hpool := recGoI_pool cfg rtest words resp2 shuf2 (cfg.resultCount.getD 3)
      3 0 ⟨[], 0, 0, 0, 0, 0⟩
    have hnd := foldl_mergeInto_nodup
      (recGoI cfg rtest words resp2 shuf2 (cfg.resultCount.getD 3)
        3 0 ⟨[], 0, 0, 0, 0, 0⟩).extracted [] (by simp)
    constructor
    · simp only [getRandomTop3I]
      rw [hpool, List.map_take]
      exact hnd.sublist (List.take_sublist _ _)
    · intro it hit
      simp only [getRandomTop3I] at hit ⊢
      rw [hpool] at hit
      have hmem := List.mem_of_mem_take hit
      have hfind := findById_of_mem _ it hmem hnd
      rw [findById_foldl] at hfind
      simpa using hfind

/-- Claim C2 witness: five attempts all returning the same item — the
result keeps a single copy and it is the first occurrence across the
concatenated extracted lists. -/
theorem orchestrator_dedup_first_wins_witness :
    mkSafe (sampleGood 1) "u"
        ∈ (searchTop3I cfgDefault rtNone [] (fun _ => [sampleGood 1]) (fun _ => 0)
            (fun _ _ => 0)).result.illusts ∧
    findById (searchTop3I cfgDefault rtNone [] (fun _ => [sampleGood 1]) (fun _ => 0)
        (fun _ _ => 0)).extracted.flatten (mkSafe (sampleGood 1) "u").id
      = some (mkSafe (sampleGood 1) "u") :=
  ⟨by decide,
    (orchestrator_dedup_first_wins cfgDefault rtNone [] (fun _ => [sampleGood 1]) (fun _ => 0)
      (fun _ _ => 0) (fun _ => [sampleGood 1]) (fun _ _ => 0)).1.2
      (mkSafe (sampleGood 1) "u") (by decide)⟩

/-- Claim C3: for every keyword context (filters, rules, random draws) and
every sequence of upstream responses, `searchTop3` issues at most 5 upstream
search calls; it is a total function of its oracles (so it always
terminates, including when every attempt returns zero raw items), and the
instrumented run computes exactly the plain `searchTop3` result. -/
theorem searchTop3_call_budget (cfg : Config) (rtest : String → String → Option Bool)
    (words : List BannedWord) (resp : Nat → List Illust) (rnd : Nat → ℚ)
    (shuf : Nat → Nat → Nat) :
    (searchTop3I cfg rtest words resp rnd shuf).calls ≤ 5 ∧
    (searchTop3I cfg rtest words resp rnd shuf).result
      = searchTop3 cfg rtest words resp rnd shuf :=
  ⟨searchGoI_calls_le cfg rtest words resp rnd shuf (cfg.resultCount.getD 3) 5 0 _,
   searchGoI_result cfg rtest words resp rnd shuf (cfg.resultCount.getD 3) 5 0 _⟩

/-- Claim C10: every result returned by `searchTop3` and `getRandomTop3` —
on the target-reached path as well as after budget exhaustion — contains at
most the configured `resultCount` (default 3) items: every return path
truncates the pool with `take`. -/
theorem results_truncated (cfg : Config) (rtest : String → String → Option Bool)
    (words : List BannedWord) (resp : Nat → List Illust) (rnd : Nat → ℚ)
    (shuf : Nat → Nat → Nat) (resp2 : Nat → List Illust) (shuf2 : Nat → Nat → Nat) :
    (searchTop3 cfg rtest words resp rnd shuf).illusts.length ≤ cfg.resultCount.getD 3 ∧
    (getRandomTop3 cfg rtest words resp2 shuf2).illusts.length ≤ cfg.resultCount.getD 3 :=
  ⟨searchGo_length_le cfg rtest words resp rnd shuf (cfg.resultCount.getD 3) 5 0 _,
   recGo_length_le cfg rtest words resp2 shuf2 (cfg.resultCount.getD 3) 3 0 _⟩

/-! Offset-ceiling lemmas. -/

theorem jsRandInt_le (q : ℚ) (m : Nat) (h0 : 0 ≤ q) (h1 : q < 1) :
    jsRandInt q m ≤ m := by
  unfold jsRandInt
  have hm1 : (0 : ℚ) < (m : ℚ) + 1 := by positivity
  have hfl : ⌊q * ((m : ℚ) + 1)⌋ < (m : ℤ) + 1 := by
    apply Int.floor_lt.mpr
    push_cast
    exact mul_lt_of_lt_one_left hm1 h1
  have hfl0 : 0 ≤ ⌊q * ((m : ℚ) + 1)⌋ := Int.floor_nonneg.mpr (by positivity)
  omega

theorem jsRandInt_eq_iff (q : ℚ) (m k : Nat) (h0 : 0 ≤ q) (h1 : q < 1) :
    jsRandInt q m = k ↔ ((k : ℚ) / ((m : ℚ) + 1) ≤ q ∧ q < ((k : ℚ) + 1) / ((m : ℚ) + 1)) := by
  unfold jsRandInt
  have hm1 : (0 : ℚ) < (m : ℚ) + 1 := by positivity
  have hfl0 : 0 ≤ ⌊q * ((m : ℚ) + 1)⌋ := Int.floor_nonneg.mpr (by positivity)
  constructor
  · intro hk
    have hk' : ⌊q * ((m : ℚ) + 1)⌋ = (k : ℤ) := by omega
    have hiff := Int.floor_eq_iff.mp hk'
    constructor
    · rw [div_le_iff₀ hm1]
      exact_mod_cast hiff.1
    · rw [lt_div_iff₀ hm1]
      have := hiff.2
      push_cast at this ⊢
      linarith
  · rintro ⟨ha, hb⟩
    have ha' : (k : ℚ) ≤ q * ((m : ℚ) + 1) := (div_le_iff₀ hm1).mp ha
    have hb' : q * ((m : ℚ) + 1) < (k : ℚ) + 1 := (lt_div_iff₀ hm1).mp hb
    have hk' : ⌊q * ((m : ℚ) + 1)⌋ = (k : ℤ) :=
      Int.floor_eq_iff.mpr ⟨by exact_mod_cast ha', by push_cast; exact hb'⟩
    omega

theorem searchGoI_trace_idx (cfg : Config) (rtest : String → String → Option Bool)
    (words : List BannedWord) (resp : Nat → List Illust) (rnd : Nat → ℚ)
    (shuf : Nat → Nat → Nat) (required : Nat) :
    ∀ (fuel attempt : Nat) (st : SearchAcc),
      ((searchGoI cfg rtest words resp rnd shuf required fuel attempt st).trace.map
          fun a => a.idx)
        = List.range' attempt
            (searchGoI cfg rtest words resp rnd shuf required fuel attempt st).calls := by
  intro fuel
  induction fuel with
  | zero => intro attempt st; simp [searchGoI]
  | succ n ih =>
    intro attempt st
    simp only [searchGoI]
    by_cases h1 : required ≤ (mergeInto st.pool
        (extractTopSafe cfg rtest words (shuf attempt) (resp attempt) true).illusts).length
    · rw [if_pos h1]
      simp [List.range']
    · rw [if_neg h1]
      by_cases h2 : (resp attempt).length = 0
      · rw [if_pos h2]
        by_cases h3 : maxOffsetAt st.offsetLevel = 0
        · rw [if_pos h3]
          simp [List.range']
        · rw [if_neg h3]
          simp only [List.map_cons, List.range']
          exact congrArg (List.cons attempt) (ih (attempt + 1) _)
      · rw [if_neg h2]
        simp only [List.map_cons, List.range']
        exact congrArg (List.cons attempt) (ih (attempt + 1) _)

theorem searchGoI_trace_entries (cfg : Config) (rtest : String → String → Option Bool)
    (words : List BannedWord) (resp : Nat → List Illust) (rnd : Nat → ℚ)
    (shuf : Nat → Nat → Nat) (required : Nat)
    (hrnd : ∀ t, 0 ≤ rnd t ∧ rnd t < 1) :
    ∀ (fuel attempt : Nat) (st : SearchAcc),
      ∀ a ∈ (searchGoI cfg rtest words resp rnd shuf required fuel attempt st).trace,
        a.maxOff = maxOffsetAt a.level ∧ a.off ≤ a.maxOff ∧
        a.rawEmpty = decide ((resp a.idx).length = 0) := by
  intro fuel
  induction fuel with
  | zero => intro attempt st a ha; simp [searchGoI] at ha
  | succ n ih =>
    intro attempt st a ha
    simp only [searchGoI] at ha
    have hinfo : ∀ h : a = (⟨attempt, st.offsetLevel, maxOffsetAt st.offsetLevel,
        if 0 < maxOffsetAt st.offsetLevel then
          jsRandInt (rnd attempt) (maxOffsetAt st.offsetLevel) else 0,
        decide ((resp attempt).length = 0)⟩ : AttemptInfo),
        a.maxOff = maxOffsetAt a.level ∧ a.off ≤ a.maxOff ∧
        a.rawEmpty = decide ((resp a.idx).length = 0) := by
      intro h
      subst h
      refine ⟨rfl, ?_, rfl⟩
      by_cases hm : 0 < maxOffsetAt st.offsetLevel
      · simp only [if_pos hm]
        exact jsRandInt_le _ _ (hrnd attempt).1 (hrnd attempt).2
      · simp only [if_neg hm]
        exact Nat.zero_le _
    by_cases h1 : required ≤ (mergeInto st.pool
        (extractTopSafe cfg rtest words (shuf attempt) (resp attempt) true).illusts).length
    · rw [if_pos h1] at ha
      rcases List.mem_cons.mp ha with h | h
      · exact hinfo h
      · simp at h
    · rw [if_neg h1] at ha
      by_cases h2 : (resp attempt).length = 0
      · rw [if_pos h2] at ha
        by_cases h3 : maxOffsetAt st.offsetLevel = 0
        · rw [if_pos h3] at ha
          rcases List.mem_cons.mp ha with h | h
          · exact hinfo h
          · simp at h
        · rw [if_neg h3] at ha
          rcases List.mem_cons.mp ha with h | h
          · exact hinfo h
          · exact ih (attempt + 1) _ a h
      · rw [if_neg h2] at ha
        rcases List.mem_cons.mp ha with h | h
        · exact hinfo h
        · exact ih (attempt + 1) _ a h

theorem searchGoI_trace_chain (cfg : Config) (rtest : String → String → Option Bool)
    (words : List BannedWord) (resp : Nat → List Illust) (rnd : Nat → ℚ)
    (shuf : Nat → Nat → Nat) (required : Nat) :
    ∀ (fuel attempt : Nat) (st : SearchAcc),
      (∀ a, (searchGoI cfg rtest words resp rnd shuf required fuel attempt st).trace.head?
          = some a → a.level = st.offsetLevel) ∧
      (searchGoI cfg rtest words resp rnd shuf required fuel attempt st).trace.Chain'
        (fun a b => b.level = if a.rawEmpty then a.level + 1 else a.level) := by
  intro fuel
  induction fuel with
  | zero =>
    intro attempt st
    constructor
    · intro a ha
      simp [searchGoI] at ha
    · simp [searchGoI]
  | succ n ih =>
    intro attempt st
    simp only [searchGoI]
    by_cases h1 : required ≤ (mergeInto st.pool
        (extractTopSafe cfg rtest words (shuf attempt) (resp attempt) true).illusts).length
    · rw [if_pos h1]
      constructor
      · intro a ha
        simp at ha
        simp [← ha]
      · simp
    · rw [if_neg h1]
      by_cases h2 : (resp attempt).length = 0
      · rw [if_pos h2]
        by_cases h3 : maxOffsetAt st.offsetLevel = 0
        · rw [if_pos h3]
          constructor
          · intro a ha
            simp at ha
            simp [← ha]
          · simp
        · rw [if_neg h3]
          constructor
          · intro a ha
            simp at ha
            simp [← ha]
          · refine List.chain'_cons'.mpr ⟨?_, (ih (attempt + 1) _).2⟩
            intro b hb
            have hlev := (ih (attempt + 1) _).1 b (Option.mem_def.mp hb)
            rw [hlev]
            simp [h2]
      · rw [if_neg h2]
        constructor
        · intro a ha
          simp at ha
          simp [← ha]
        · refine List.chain'_cons'.mpr ⟨?_, (ih (attempt + 1) _).2⟩
          intro b hb
          have hlev := (ih (attempt + 1) _).1 b (Option.mem_def.mp hb)
          rw [hlev]
          simp [h2]

/-- Claim C4: in `searchTop3`, every executed attempt's ceiling is the
ladder value `offsetLimits[min(level, 4)]` for its offset level, the drawn
offset never exceeds the ceiling, the first attempt runs at level 0
(ceiling 300), the level increases by exactly one precisely on attempts
whose raw upstream batch is empty (emptiness after filtering never moves
it), attempts are the consecutive upstream calls `0, 1, …`, and the offset
draw `⌊q·(m+1)⌋` hits each value `k` exactly on the interval
`[k/(m+1), (k+1)/(m+1))` of the unit draw — the uniform distribution on
`[0, ceiling]`. -/
theorem search_offset_ceiling (cfg : Config) (rtest : String → String → Option Bool)
    (words : List BannedWord) (resp : Nat → List Illust) (rnd : Nat → ℚ)
    (shuf : Nat → Nat → Nat) (hrnd : ∀ t, 0 ≤ rnd t ∧ rnd t < 1) :
    (∀ a ∈ (searchTop3I cfg rtest words resp rnd shuf).trace,
        a.maxOff = maxOffsetAt a.level ∧ a.off ≤ a.maxOff ∧
        a.rawEmpty = decide ((resp a.idx).length = 0)) ∧
    (∀ a, (searchTop3I cfg rtest words resp rnd shuf).trace.head? = some a →
        a.level = 0 ∧ a.maxOff = 300) ∧
    (searchTop3I cfg rtest words resp rnd shuf).trace.Chain'
      (fun a b => b.level = if a.rawEmpty then a.level + 1 else a.level) ∧
    ((searchTop3I cfg rtest words resp rnd shuf).trace.map fun a => a.idx)
      = List.range (searchTop3I cfg rtest words resp rnd shuf).calls ∧
    (∀ (m k : Nat) (q : ℚ), 0 ≤ q → q < 1 →
      (jsRandInt q m = k ↔
        ((k : ℚ) / ((m : ℚ) + 1) ≤ q ∧ q < ((k : ℚ) + 1) / ((m : ℚ) + 1)))) := by
  have hentries := searchGoI_trace_entries cfg rtest words resp rnd shuf
    (cfg.resultCount.getD 3) hrnd 5 0 ⟨[], 0, 0, 0, 0, 0⟩
  have hchain := searchGoI_trace_chain cfg rtest words resp rnd shuf
    (cfg.resultCount.getD 3) 5 0 ⟨[], 0, 0, 0, 0, 0⟩
  have hidx := searchGoI_trace_idx cfg rtest words resp rnd shuf
    (cfg.resultCount.getD 3) 5 0 ⟨[], 0, 0, 0, 0, 0⟩
  simp only [searchTop3I]
  refine ⟨hentries, ?_, hchain.2, ?_, fun m k q h0 h1 => jsRandInt_eq_iff q m k h0 h1⟩
  · intro a ha
    have hlev := hchain.1 a ha
    have hmem : a ∈ (searchTop3I cfg rtest words resp rnd shuf).trace :=
      List.mem_of_mem_head? ha
    have hmax := (hentries a hmem).1
    exact ⟨hlev, by rw [hmax, hlev]; rfl⟩
  · rw [hidx, List.range_eq_range']

/-- Claim C4 witness: instantiating the ceiling theorem with the constant
zero draw and empty upstream responses — the trace's attempt indices are
the consecutive call numbers. -/
theorem search_offset_ceiling_witness :
    ((searchTop3I cfgDefault rtNone [] (fun _ => []) (fun _ => 0) (fun _ _ => 0)).trace.map
        fun a => a.idx)
      = List.range (searchTop3I cfgDefault rtNone [] (fun _ => [])
          (fun _ => 0) (fun _ _ => 0)).calls :=
  (search_offset_ceiling cfgDefault rtNone [] (fun _ => []) (fun _ => 0) (fun _ _ => 0)
    (fun _ => ⟨le_refl 0, by norm_num⟩)).2.2.2.1

/-- The per-attempt condition the `getRandomTop3` early break tests: the
attempt's extracted list is empty and none of the three filters rejected
anything. -/
def recEmptyUnfiltered (cfg : Config) (rtest : String → String → Option Bool)
    (words : List BannedWord) (resp : Nat → List Illust)
    (shuf : Nat → Nat → Nat) (t : Nat) : Prop :=
  (extractTopSafe cfg rtest words (shuf t) (resp t) true).illusts.length = 0 ∧
  (extractTopSafe cfg rtest words (shuf t) (resp t) true).r18Filtered
    + (extractTopSafe cfg rtest words (shuf t) (resp t) true).sensitiveFiltered
    + (extractTopSafe cfg rtest words (shuf t) (resp t) true).bannedFiltered = 0

theorem recGoI_calls_le (cfg : Config) (rtest : String → String → Option Bool)
    (words : List BannedWord) (resp : Nat → List Illust)
    (shuf : Nat → Nat → Nat) (required : Nat) :
    ∀ (fuel attempt : Nat) (st : SearchAcc),
      (recGoI cfg rtest words resp shuf required fuel attempt st).calls ≤ fuel := by
  intro fuel
  induction fuel with
  | zero => intro attempt st; simp [recGoI]
  | succ n ih =>
    intro attempt st
    simp only [recGoI]
    split_ifs
    all_goals first
      | exact Nat.succ_le_succ (ih (attempt + 1) _)
      | simp

theorem recStep_iff_helper (cfg : Config) (rtest : String → String → Option Bool)
    (words : List BannedWord) (resp : Nat → List Illust)
    (shuf : Nat → Nat → Nat) (required n attempt : Nat) (st2 : SearchAcc)
    (hntcond : ¬ recEmptyUnfiltered cfg rtest words resp shuf attempt)
    (ih1 : 0 < n → 0 < (recGoI cfg rtest words resp shuf required n (attempt + 1) st2).calls)
    (ih2 : (recGoI cfg rtest words resp shuf required n (attempt + 1) st2).reason
        = StopReason.emptyBreak ↔
      0 < (recGoI cfg rtest words resp shuf required n (attempt + 1) st2).calls ∧
      recEmptyUnfiltered cfg rtest words resp shuf
        (attempt + 1
          + ((recGoI cfg rtest words resp shuf required n (attempt + 1) st2).calls - 1)) ∧
      (recGoI cfg rtest words resp shuf required n
          (attempt + 1) st2).result.illusts.length < required) :
    (recGoI cfg rtest words resp shuf required n (attempt + 1) st2).reason
        = StopReason.emptyBreak ↔
      0 < (recGoI cfg rtest words resp shuf required n (attempt + 1) st2).calls + 1 ∧
      recEmptyUnfiltered cfg rtest words resp shuf
        (attempt
          + ((recGoI cfg rtest words resp shuf required n (attempt + 1) st2).calls + 1 - 1)) ∧
      (recGoI cfg rtest words resp shuf required n
          (attempt + 1) st2).result.illusts.length < required := by
  rcases Nat.eq_zero_or_pos
      (recGoI cfg rtest words resp shuf required n (attempt + 1) st2).calls with hz | hpos
  · have hn : n = 0 := by
      by_contra hn0
      have := ih1 (Nat.pos_of_ne_zero hn0)
      omega
    subst hn
    have hreason : (recGoI cfg rtest words resp shuf required 0 (attempt + 1) st2).reason
        = StopReason.budget := rfl
    constructor
    · intro h
      rw [hreason] at h
      cases h
    · rintro ⟨-, hcond, -⟩
      rw [hz] at hcond
      exact absurd hcond hntcond
  · have harith : attempt + 1
        + ((recGoI cfg rtest words resp shuf required n (attempt + 1) st2).calls - 1)
      = attempt
        + ((recGoI cfg rtest words resp shuf required n (attempt + 1) st2).calls + 1 - 1) := by
      omega
    constructor
    · intro h
      obtain ⟨-, hc, hl⟩ := ih2.mp h
      exact ⟨by omega, by rwa [harith] at hc, hl⟩
    · rintro ⟨-, hc, hl⟩
      exact ih2.mpr ⟨hpos, by rwa [← harith] at hc, hl⟩

theorem recGoI_emptyBreak_iff (cfg : Config) (rtest : String → String → Option Bool)
    (words : List BannedWord) (resp : Nat → List Illust)
    (shuf : Nat → Nat → Nat) (required : Nat) :
    ∀ (fuel attempt : Nat) (st : SearchAcc),
      (0 < fuel → 0 < (recGoI cfg rtest words resp shuf required fuel attempt st).calls) ∧
      ((recGoI cfg rtest words resp shuf required fuel attempt st).reason
          = StopReason.emptyBreak ↔
        0 < (recGoI cfg rtest words resp shuf required fuel attempt st).calls ∧
        recEmptyUnfiltered cfg rtest words resp shuf
          (attempt + ((recGoI cfg rtest words resp shuf required fuel attempt st).calls - 1)) ∧
        (recGoI cfg rtest words resp shuf required fuel attempt st).result.illusts.length
          < required) := by
  intro fuel
  induction fuel with
  | zero =>
    intro attempt st
    constructor
    · intro h
      exact absurd h (by simp)
    · simp [recGoI]
  | succ n ih =>
    intro attempt st
    simp only [recGoI]
    by_cases h1 : required ≤ (mergeInto st.pool
        (extractTopSafe cfg rtest words (shuf attempt) (resp attempt) true).illusts).length
    · rw [if_pos h1]
      refine ⟨fun _ => by simp, ?_⟩
      constructor
      · intro habs
        simp at habs
      · rintro ⟨-, -, hlt⟩
        exfalso
        have hlt2 : (List.take required (mergeInto st.pool
            (extractTopSafe cfg rtest words (shuf attempt)
              (resp attempt) true).illusts)).length < required := hlt
        rw [List.length_take] at hlt2
        omega
    · rw [if_neg h1]
      by_cases h2 : recEmptyUnfiltered cfg rtest words resp shuf attempt
      · rw [if_pos (show (extractTopSafe cfg rtest words (shuf attempt)
              (resp attempt) true).illusts.length = 0 ∧
            (extractTopSafe cfg rtest words (shuf attempt) (resp attempt) true).r18Filtered
              + (extractTopSafe cfg rtest words (shuf attempt)
                  (resp attempt) true).sensitiveFiltered
              + (extractTopSafe cfg rtest words (shuf attempt)
                  (resp attempt) true).bannedFiltered = 0 from h2)]
        refine ⟨fun _ => by simp, ?_⟩
        have hlen : (List.take required (mergeInto st.pool
            (extractTopSafe cfg rtest words (shuf attempt)
              (resp attempt) true).illusts)).length < required := by
          rw [List.length_take]
          omega
        constructor
        · intro _
          exact ⟨by simp, h2, hlen⟩
        · intro _
          rfl
      · rw [if_neg (show ¬ ((extractTopSafe cfg rtest words (shuf attempt)
              (resp attempt) true).illusts.length = 0 ∧
            (extractTopSafe cfg rtest words (shuf attempt) (resp attempt) true).r18Filtered
              + (extractTopSafe cfg rtest words (shuf attempt)
                  (resp attempt) true).sensitiveFiltered
              + (extractTopSafe cfg rtest words (shuf attempt)
                  (resp attempt) true).bannedFiltered = 0) from h2)]
        exact ⟨fun _ => by simp,
          recStep_iff_helper cfg rtest words resp shuf required n attempt _ h2
            (ih (attempt + 1) _).1 (ih (attempt + 1) _).2⟩

/-- Claim C5 (amended): `getRandomTop3` stops issuing further attempts with
the pool still short of the target exactly when an attempt's *extracted*
list is empty and no filter rejected anything in that attempt — a condition
that holds for a truly empty upstream batch but also when every scanned raw
item lacks a resolvable image URL; the raw batch itself need not be empty.
The retry budget of 3 upstream calls is never exceeded. -/
theorem getRandom_early_stop_iff (cfg : Config) (rtest : String → String → Option Bool)
    (words : List BannedWord) (resp : Nat → List Illust) (shuf : Nat → Nat → Nat) :
    ((getRandomTop3I cfg rtest words resp shuf).reason = StopReason.emptyBreak ↔
      0 < (getRandomTop3I cfg rtest words resp shuf).calls ∧
      recEmptyUnfiltered cfg rtest words resp shuf
        ((getRandomTop3I cfg rtest words resp shuf).calls - 1) ∧
      (getRandomTop3I cfg rtest words resp shuf).result.illusts.length
        < cfg.resultCount.getD 3) ∧
    (getRandomTop3I cfg rtest words resp shuf).calls ≤ 3 := by
  have hiff := (recGoI_emptyBreak_iff cfg rtest words resp shuf (cfg.resultCount.getD 3)
    3 0 ⟨[], 0, 0, 0, 0, 0⟩).2
  have hle := recGoI_calls_le cfg rtest words resp shuf (cfg.resultCount.getD 3)
    3 0 ⟨[], 0, 0, 0, 0, 0⟩
  simp only [getRandomTop3I]
  exact ⟨by simpa using hiff, hle⟩

/-- Claim C5 counterexample: with every upstream batch consisting of one
clean item that has no resolvable image URL, `getRandomTop3` stops early
after a single call (reason `emptyBreak`, empty result) even though the raw
upstream batch is nonempty — refuting "stops … exactly when an attempt's
raw upstream batch was empty". -/
theorem getRandom_early_stop_counterexample :
    (getRandomTop3I cfgDefault rtNone [] (fun _ => [sampleNoUrl]) (fun _ _ => 0)).calls = 1 ∧
    (getRandomTop3I cfgDefault rtNone [] (fun _ => [sampleNoUrl]) (fun _ _ => 0)).reason
      = StopReason.emptyBreak ∧
    (getRandomTop3I cfgDefault rtNone [] (fun _ => [sampleNoUrl])
      (fun _ _ => 0)).result.illusts.length = 0 ∧
    ((fun _ : Nat => [sampleNoUrl]) 0).length = 1 := by
  exact ⟨by decide, by decide, by decide, by decide⟩

/-- Claim C6 witness: the spec's scenario rule (fuzzy `血腥`) on the text
`血腥场面` — the lookup agrees with the first-enabled-match formulation. -/
theorem checkKeyword_first_enabled_match_witness :
    checkKeyword rtNone [⟨"id1", "血腥", MatchType.fuzzy, true, 0⟩] "血腥场面"
      = [(⟨"id1", "血腥", MatchType.fuzzy, true, 0⟩ : BannedWord)].find?
          (fun w => w.enabled && matchesRule rtNone "血腥场面" w) :=
  (checkKeyword_first_enabled_match rtNone
    [⟨"id1", "血腥", MatchType.fuzzy, true, 0⟩] "血腥场面").1

/-- Claim C5 witness: a concrete run never exceeds the 3-call budget. -/
theorem getRandom_early_stop_iff_witness :
    (getRandomTop3I cfgDefault rtNone [] (fun _ => []) (fun _ _ => 0)).calls ≤ 3 :=
  (getRandom_early_stop_iff cfgDefault rtNone [] (fun _ => []) (fun _ _ => 0)).2

end NapcatPixiv
